import Mathlib

/-!
Shallow embedding of the figma-email-assistant analysis core.

Sources embedded here:
- `src/code.ts` : heuristic detection (`detectEmailOpportunities`, `analyzeNode`,
  the keyword predicates, `findButtonsInFrame`, `extractFrameContent`);
- `src/ui.ts`   : the text-channel join (`analyzeWithAI`, lines 386-399) and the
  flow synthesizer (`generateCombinedFlowSummary`);
- `api/analyze.ts` : `parseAnalysisResponse` and the handler's error paths;
- `api/vision.ts`  : the per-frame vision loop and `analyzeFrameWithVision`.

Numbers that are JS floats in the source (confidences, dimensions) are modelled
as rationals; JSON parsing of an LLM response text is modelled by passing the
parse outcome (an `Option` of the parsed record list) as an explicit input,
since the claims only depend on how the code reacts to a successful or failed
parse, not on the JSON grammar itself.
-/

/-- Lowercasing of a string, as JS `String.prototype.toLowerCase` on the ASCII
names used by the plugin (`Char.toLower` per character). -/
def lowerStr (s : String) : String :=
  String.mk (s.data.map Char.toLower)

/-- Decidable list-prefix test used to implement substring search. -/
def isPrefixL : List Char → List Char → Bool
  | [], _ => true
  | _ :: _, [] => false
  | a :: as, b :: bs => a == b && isPrefixL as bs

/-- Substring search on char lists: does `p` occur inside the second list. -/
def containsSub (p : List Char) : List Char → Bool
  | [] => p.isEmpty
  | c :: t => isPrefixL p (c :: t) || containsSub p t

/-- JS `s.includes(pat)`. -/
def includesStr (s pat : String) : Bool :=
  containsSub pat.data s.data

/-- JS `x || d` for an optional string field: `undefined` and the empty string
(both falsy) yield the default. -/
def jsOr (o : Option String) (d : String) : String :=
  match o with
  | none => d
  | some s => if s = "" then d else s

/-- JS `s.slice(0, n)` (first `n` characters). -/
def strTake (s : String) (n : Nat) : String :=
  String.mk (s.data.take n)

/-- JS `text.trim()` is truthy exactly when the text has a non-whitespace
character (`src/code.ts` only uses the trimmed text as a boolean guard). -/
def trimmedNonempty (s : String) : Bool :=
  s.data.any (fun c => !(c == ' ' || c == '\n' || c == '\t' || c == '\r'))

/-- JS `[...new Set(l)]` : the list with every later duplicate removed, first
occurrences kept in order (`Set` iteration is insertion order). -/
def jsSetDedupAux (seen : List String) : List String → List String
  | [] => []
  | x :: xs => if x ∈ seen then jsSetDedupAux seen xs else x :: jsSetDedupAux (x :: seen) xs

/-- A node of the Figma scene tree as the plugin reads it: id, name, node type
(the `type` string: FRAME, COMPONENT, INSTANCE, TEXT, ...), text characters
(meaningful for TEXT nodes), pixel dimensions and children. -/
inductive FigNode where
  | node (id name ntype chars : String) (width height : ℚ) (children : List FigNode)

def FigNode.id : FigNode → String
  | .node i _ _ _ _ _ _ => i

def FigNode.name : FigNode → String
  | .node _ n _ _ _ _ _ => n

def FigNode.ntype : FigNode → String
  | .node _ _ t _ _ _ _ => t

def FigNode.chars : FigNode → String
  | .node _ _ _ c _ _ _ => c

def FigNode.width : FigNode → ℚ
  | .node _ _ _ _ w _ _ => w

def FigNode.height : FigNode → ℚ
  | .node _ _ _ _ _ h _ => h

def FigNode.children : FigNode → List FigNode
  | .node _ _ _ _ _ _ cs => cs

mutual

/-- Strict descendants of a node in document order (Figma `node.findAll` with a
true predicate searches the subtree below the node). -/
def nodeDescendants : FigNode → List FigNode
  | .node _ _ _ _ _ _ cs => listDescendants cs

def listDescendants : List FigNode → List FigNode
  | [] => []
  | c :: cs => c :: nodeDescendants c ++ listDescendants cs

end

mutual

/-- `findButtonsInFrame`'s inner walker (`src/code.ts`): for a COMPONENT or
INSTANCE whose lowercased name mentions button/cta/btn, push the characters of
its first TEXT descendant; for a short TEXT node push its lowercased text; then
recurse into the children. -/
def findButtonsNode (n : FigNode) : List String :=
  match n with
  | .node _ name ntype chars _ _ children =>
    let fromComponent :=
      if (ntype == "COMPONENT" || ntype == "INSTANCE") &&
         (includesStr (lowerStr name) "button" || includesStr (lowerStr name) "cta" ||
          includesStr (lowerStr name) "btn") then
        match (nodeDescendants n).filter (fun d => d.ntype == "TEXT") with
        | [] => []
        | t :: _ => [t.chars]
      else []
    let fromText :=
      if ntype == "TEXT" && (lowerStr chars).data.length < 30 then [lowerStr chars] else []
    fromComponent ++ fromText ++ findButtonsList children

def findButtonsList : List FigNode → List String
  | [] => []
  | c :: cs => findButtonsNode c ++ findButtonsList cs

end

/-- One `{ name, type }` entry of the `childNodes` log built by
`extractFrameContent`. -/
structure ChildInfo where
  name : String
  ntype : String
deriving DecidableEq, Repr

/-- Indentation prefix `'  '.repeat(depth)` prepended to a logged node name. -/
def indentName (depth : Nat) (name : String) : String :=
  String.mk (List.replicate (2 * depth) ' ') ++ name

mutual

/-- `extractFrameContent`'s inner walker: logs every visited node (the root
included) with an indented name, collects the characters of TEXT nodes whose
trimmed text is nonempty, and recurses. Returns (texts, child log). -/
def extractContentNode (depth : Nat) (n : FigNode) : List String × List ChildInfo :=
  match n with
  | .node _ name ntype chars _ _ children =>
    let selfInfo : List ChildInfo := [⟨indentName depth name, ntype⟩]
    let selfText : List String :=
      if ntype == "TEXT" && trimmedNonempty chars then [chars] else []
    let rest := extractContentList (depth + 1) children
    (selfText ++ rest.1, selfInfo ++ rest.2)

def extractContentList (depth : Nat) : List FigNode → List String × List ChildInfo
  | [] => ([], [])
  | c :: cs =>
    let r1 := extractContentNode depth c
    let r2 := extractContentList depth cs
    (r1.1 ++ r2.1, r1.2 ++ r2.2)

end

/-- `FrameContent` of `src/code.ts` (the `dimensions` record is flattened into
the two fields). -/
structure FrameContent where
  textContent : List String
  childNodes : List ChildInfo
  width : ℚ
  height : ℚ
deriving DecidableEq, Repr

/-- `extractFrameContent` of `src/code.ts`. -/
def extractFrameContent (n : FigNode) : FrameContent :=
  let r := extractContentNode 0 n
  { textContent := r.1, childNodes := r.2, width := n.width, height := n.height }

/-- The `context` payload of an opportunity. -/
structure OppContext where
  productType : Option String
  userAction : Option String
  detectedVariables : List String
deriving DecidableEq, Repr

/-- The server-side `FlowAnalysis` record of `api/analyze.ts` (one parsed
text-analysis entry); the same shape is stored on an opportunity's
`aiAnalysis` field by the UI. -/
structure FlowAnalysis where
  frameId : String
  frameName : String
  detectedPurpose : String
  suggestedEmailType : String
  suggestedEmailName : String
  confidence : ℚ
  reasoning : String
  suggestedVariables : List String
deriving DecidableEq, Repr

/-- `EmailOpportunity` of `src/code.ts`, with the `aiAnalysis` field the UI
adds when text-channel results are merged (initially absent). The `type`
field is kept as a string because the UI writes whatever category string the
network response carries into it. -/
structure EmailOpportunity where
  id : String
  type : String
  frameName : String
  frameId : String
  confidence : ℚ
  context : OppContext
  frameContent : Option FrameContent
  aiAnalysis : Option FlowAnalysis
deriving DecidableEq, Repr

/-- `isSignupFlow` of `src/code.ts`. -/
def isSignupFlow (name : String) : Bool :=
  ["signup", "sign up", "register", "registration",
   "create account", "new account", "join", "get started"].any (fun p => includesStr name p)

/-- `isCheckoutFlow` of `src/code.ts`. -/
def isCheckoutFlow (name : String) : Bool :=
  ["checkout", "place order", "buy", "purchase",
   "payment", "cart", "order", "confirm order"].any (fun p => includesStr name p)

/-- `isPasswordResetFlow` of `src/code.ts`. -/
def isPasswordResetFlow (name : String) : Bool :=
  ["forgot password", "reset password", "password reset", "forgot"].any (fun p => includesStr name p)

/-- `isEmailVerificationFlow` of `src/code.ts`. -/
def isEmailVerificationFlow (name : String) : Bool :=
  ["verify email", "email verification", "confirm email", "verify account"].any
    (fun p => includesStr name p)

/-- Button texts of a frame that carry a generic action verb
(`analyzeNode`'s loop over `findButtonsInFrame` returns on the first such
button; the produced record does not depend on which button matched). -/
def hasActionButton (n : FigNode) : Bool :=
  (findButtonsNode n).any (fun b =>
    includesStr (lowerStr b) "submit" || includesStr (lowerStr b) "confirm" ||
    includesStr (lowerStr b) "send")

/-- `analyzeNode` of `src/code.ts` (lines 482-577): the ordered keyword groups,
then the button-based generic fallback for FRAME nodes. `name` is the
lowercased node name, as passed by the caller. -/
def analyzeNode (node : FigNode) (name : String) : Option EmailOpportunity :=
  let frameContent := extractFrameContent node
  if isSignupFlow name then
    some { id := "opp_" ++ node.id, type := "welcome_email", frameName := node.name,
           frameId := node.id, confidence := mkRat 9 10,
           context := { productType := none, userAction := some "signed_up",
                        detectedVariables := ["user_name", "email", "verify_link"] },
           frameContent := some frameContent, aiAnalysis := none }
  else if isCheckoutFlow name then
    some { id := "opp_" ++ node.id, type := "order_confirmation", frameName := node.name,
           frameId := node.id, confidence := mkRat 19 20,
           context := { productType := some "e-commerce", userAction := some "placed_order",
                        detectedVariables := ["order_number", "customer_name", "total",
                                              "items", "shipping_address"] },
           frameContent := some frameContent, aiAnalysis := none }
  else if isPasswordResetFlow name then
    some { id := "opp_" ++ node.id, type := "password_reset", frameName := node.name,
           frameId := node.id, confidence := mkRat 23 25,
           context := { productType := none, userAction := some "requested_password_reset",
                        detectedVariables := ["user_name", "reset_link", "expiry_time"] },
           frameContent := some frameContent, aiAnalysis := none }
  else if isEmailVerificationFlow name then
    some { id := "opp_" ++ node.id, type := "email_verification", frameName := node.name,
           frameId := node.id, confidence := mkRat 22 25,
           context := { productType := none, userAction := some "needs_email_verification",
                        detectedVariables := ["user_name", "verification_link",
                                              "verification_code"] },
           frameContent := some frameContent, aiAnalysis := none }
  else if node.ntype == "FRAME" && hasActionButton node then
    some { id := "opp_" ++ node.id, type := "generic_transactional", frameName := node.name,
           frameId := node.id, confidence := mkRat 7 10,
           context := { productType := none, userAction := some "submitted_form",
                        detectedVariables := [] },
           frameContent := some frameContent, aiAnalysis := none }
  else none

/-- The opportunity pushed for every kept frame in "scan all" mode
(`detectEmailOpportunities`, lines 455-469). -/
def scanAllOpportunity (node : FigNode) : EmailOpportunity :=
  { id := "opp_" ++ node.id, type := "generic_transactional", frameName := node.name,
    frameId := node.id, confidence := mkRat 1 2,
    context := { productType := none, userAction := some "unknown", detectedVariables := [] },
    frameContent := some (extractFrameContent node), aiAnalysis := none }

/-- `detectEmailOpportunities` of `src/code.ts` (lines 437-480) as a function of
the flattened node list returned by `figma.currentPage.findAll()`: keep only
FRAME/COMPONENT nodes at least 200 px in both dimensions, then either include
every kept frame (scan-all mode) or run the heuristic classifier on its
lowercased name. -/
def detectEmailOpportunities (scanAll : Bool) : List FigNode → List EmailOpportunity
  | [] => []
  | n :: ns =>
    if n.ntype = "FRAME" ∨ n.ntype = "COMPONENT" then
      if n.width < 200 ∨ n.height < 200 then detectEmailOpportunities scanAll ns
      else if scanAll then scanAllOpportunity n :: detectEmailOpportunities scanAll ns
      else
        match analyzeNode n (lowerStr n.name) with
        | some o => o :: detectEmailOpportunities scanAll ns
        | none => detectEmailOpportunities scanAll ns
    else detectEmailOpportunities scanAll ns

/-- One frame of the text-analysis request body (`FrameData` of
`api/analyze.ts`; `dimensions` flattened). -/
structure FrameData where
  name : String
  id : String
  textContent : List String
  childNodes : List ChildInfo
  width : ℚ
  height : ℚ
deriving DecidableEq, Repr

/-- One raw object of the JSON array parsed out of the LLM's text-analysis
response. Each field is optional: `none` stands for a missing field (or, for
`confidence`, a value that is not a number, and for `suggestedVariables`, a
value that is not an array), mirroring the guards in `parseAnalysisResponse`. -/
structure RawAnalysisItem where
  frameId : Option String
  frameName : Option String
  detectedPurpose : Option String
  suggestedEmailType : Option String
  suggestedEmailName : Option String
  confidence : Option ℚ
  reasoning : Option String
  suggestedVariables : Option (List String)
deriving DecidableEq, Repr

/-- Field-defaulting of one parsed item (`parseAnalysisResponse`, lines
167-176 of `api/analyze.ts`): string fields default through JS `||`, a
non-number confidence defaults to 0.5 (stored as-is otherwise, unclamped),
a non-array variable list defaults to empty. -/
def mkFlowAnalysis (it : RawAnalysisItem) : FlowAnalysis :=
  { frameId := jsOr it.frameId "",
    frameName := jsOr it.frameName "",
    detectedPurpose := jsOr it.detectedPurpose "Unknown purpose",
    suggestedEmailType := jsOr it.suggestedEmailType "generic_transactional",
    suggestedEmailName := jsOr it.suggestedEmailName "Transactional Email",
    confidence := it.confidence.getD (mkRat 1 2),
    reasoning := jsOr it.reasoning "",
    suggestedVariables := it.suggestedVariables.getD [] }

/-- The per-frame fallback stub of `parseAnalysisResponse` (lines 183-192),
emitted for every requested frame when no JSON array could be parsed from the
response. -/
def fallbackAnalysis (f : FrameData) : FlowAnalysis :=
  { frameId := f.id, frameName := f.name,
    detectedPurpose := "Could not analyze",
    suggestedEmailType := "generic_transactional",
    suggestedEmailName := "Transactional Email",
    confidence := mkRat 3 10,
    reasoning := "AI analysis failed, using fallback",
    suggestedVariables := [] }

/-- `parseAnalysisResponse` of `api/analyze.ts`: `parsed` is the outcome of
locating a bracketed array substring in the response text and JSON-parsing it
(`none` when no such substring exists or `JSON.parse` throws); on success each
item is defaulted, on failure one stub per requested frame is returned. -/
def parseAnalysisResponse (parsed : Option (List RawAnalysisItem)) (frames : List FrameData) :
    List FlowAnalysis :=
  match parsed with
  | some items => items.map mkFlowAnalysis
  | none => frames.map fallbackAnalysis

/-- The text-analysis endpoint handler of `api/analyze.ts`, abstracted over the
LLM call: `llm = none` models the call (or request handling) throwing, in which
case the catch block answers HTTP 500; `llm = some parsed` models a response
whose parse outcome is `parsed`. An empty frame list is rejected with 400
before the call. -/
def analyzeHandler (frames : List FrameData) (llm : Option (Option (List RawAnalysisItem))) :
    Except Nat (List FlowAnalysis) :=
  if frames.isEmpty then Except.error 400
  else
    match llm with
    | none => Except.error 500
    | some parsed => Except.ok (parseAnalysisResponse parsed frames)

/-- The in-place update of one opportunity by a text-analysis record
(`analyzeWithAI`, `src/ui.ts` lines 394-396): store the record and overwrite
the category and confidence. -/
def updateOpp (o : EmailOpportunity) (item : FlowAnalysis) : EmailOpportunity :=
  { o with aiAnalysis := some item, type := item.suggestedEmailType,
           confidence := item.confidence }

/-- `opportunities.find(o => o.frameId === item.frameId)` followed by the
in-place update: the first opportunity with the item's frame id is replaced,
everything else is untouched. -/
def updateFirst : List EmailOpportunity → FlowAnalysis → List EmailOpportunity
  | [], _ => []
  | o :: os, item =>
    if o.frameId == item.frameId then updateOpp o item :: os
    else o :: updateFirst os item

/-- The text-channel merge loop of `analyzeWithAI` (`src/ui.ts` lines 386-399):
every record of the response array is joined to the opportunity with the same
frame id, in response order. -/
def applyTextAnalysis (opps : List EmailOpportunity) (items : List FlowAnalysis) :
    List EmailOpportunity :=
  items.foldl updateFirst opps

/-- Last record of the response array carrying the given frame id (the record
whose values survive the merge loop when the response duplicates an id). -/
def lastMatch : List FlowAnalysis → String → Option FlowAnalysis
  | [], _ => none
  | it :: its, fid =>
    match lastMatch its fid with
    | some r => some r
    | none => if it.frameId == fid then some it else none

/-- Declarative join-by-id, following the spec's words: each opportunity is
updated with the record matching its frame id when one exists and kept
untouched otherwise. Compared against `applyTextAnalysis` in the C4 theorem. -/
def specJoinById (opps : List EmailOpportunity) (items : List FlowAnalysis) :
    List EmailOpportunity :=
  opps.map (fun o =>
    match lastMatch items o.frameId with
    | none => o
    | some it => updateOpp o it)

/-- One frame of the vision request (`FrameImage` of `api/vision.ts`). -/
structure FrameImage where
  frameId : String
  frameName : String
  imageData : String
deriving DecidableEq, Repr

/-- `VisualAnalysis` of `api/vision.ts`. -/
structure VisualAnalysis where
  frameId : String
  frameName : String
  designSummary : String
  userFlowPurpose : String
  keyElements : List String
  suggestedEmailType : String
  suggestedEmailName : String
  emailContext : String
  confidence : ℚ
deriving DecidableEq, Repr

/-- One raw JSON object parsed out of a vision response (field conventions as
in `RawAnalysisItem`). -/
structure RawVisionItem where
  designSummary : Option String
  userFlowPurpose : Option String
  keyElements : Option (List String)
  suggestedEmailType : Option String
  suggestedEmailName : Option String
  emailContext : Option String
  confidence : Option ℚ
deriving DecidableEq, Repr

/-- The response-parsing tail of `analyzeFrameWithVision` (`api/vision.ts`
lines 327-358): `raw` is the response text, `parsed` the outcome of locating a
braced object substring and JSON-parsing it. On success fields are defaulted
(confidence default 0.7); otherwise the local fallback keeps the first 200
characters of the raw text as summary with confidence 0.5. -/
def parseVisionResponse (frame : FrameImage) (raw : String) (parsed : Option RawVisionItem) :
    VisualAnalysis :=
  match parsed with
  | some p =>
    { frameId := frame.frameId, frameName := frame.frameName,
      designSummary := jsOr p.designSummary "No summary available",
      userFlowPurpose := jsOr p.userFlowPurpose "Unknown purpose",
      keyElements := p.keyElements.getD [],
      suggestedEmailType := jsOr p.suggestedEmailType "generic_transactional",
      suggestedEmailName := jsOr p.suggestedEmailName "Transactional Email",
      emailContext := jsOr p.emailContext "",
      confidence := p.confidence.getD (mkRat 7 10) }
  | none =>
    { frameId := frame.frameId, frameName := frame.frameName,
      designSummary := jsOr (some (strTake raw 200)) "Could not analyze",
      userFlowPurpose := "Unknown", keyElements := [],
      suggestedEmailType := "generic_transactional",
      suggestedEmailName := "Transactional Email", emailContext := "",
      confidence := mkRat 1 2 }

/-- The fallback pushed by the vision handler's catch block when a frame's
call throws (`api/vision.ts` lines 245-258). -/
def visionThrowFallback (frame : FrameImage) : VisualAnalysis :=
  { frameId := frame.frameId, frameName := frame.frameName,
    designSummary := "Analysis failed", userFlowPurpose := "Unknown",
    keyElements := [], suggestedEmailType := "generic_transactional",
    suggestedEmailName := "Transactional Email", emailContext := "",
    confidence := mkRat 3 10 }

/-- Outcome of one frame's vision call: `failure` models
`analyzeFrameWithVision` throwing (network or API error); `success raw parsed`
models it resolving with response text `raw` whose parse outcome is `parsed`. -/
inductive VisionCallResult where
  | failure
  | success (raw : String) (parsed : Option RawVisionItem)
deriving DecidableEq, Repr

/-- One iteration of the vision handler's loop: a thrown call is caught and
replaced by the fixed fallback, a resolved call yields the parsed (or locally
defaulted) analysis. -/
def visionAnalyzeStep (frame : FrameImage) : VisionCallResult → VisualAnalysis
  | .failure => visionThrowFallback frame
  | .success raw parsed => parseVisionResponse frame raw parsed

/-- The vision endpoint handler's loop (`api/vision.ts` lines 238-259): frames
are analyzed strictly one at a time in input order, each appending exactly one
analysis. -/
def visionHandler (inputs : List (FrameImage × VisionCallResult)) : List VisualAnalysis :=
  inputs.map (fun p => visionAnalyzeStep p.1 p.2)

/-- A vision analysis as the UI hands it to the flow synthesizer: the API
record plus the thumbnail attached in `processVisualAnalysis`
(`{ ...analysis, imageData: frame?.imageData }`, which is absent when no
exported frame carries the analysis' frame id). -/
structure AnalysisWithImage where
  frameId : String
  frameName : String
  designSummary : String
  userFlowPurpose : String
  keyElements : List String
  suggestedEmailType : String
  suggestedEmailName : String
  emailContext : String
  confidence : ℚ
  imageData : Option String
deriving DecidableEq, Repr

/-- The thumbnail-attaching map of `processVisualAnalysis` (`src/ui.ts` lines
655-658). -/
def addImages (analyses : List VisualAnalysis) (frames : List FrameImage) :
    List AnalysisWithImage :=
  analyses.map (fun a =>
    { frameId := a.frameId, frameName := a.frameName, designSummary := a.designSummary,
      userFlowPurpose := a.userFlowPurpose, keyElements := a.keyElements,
      suggestedEmailType := a.suggestedEmailType, suggestedEmailName := a.suggestedEmailName,
      emailContext := a.emailContext, confidence := a.confidence,
      imageData := (frames.find? (fun f => f.frameId == a.frameId)).map (fun f => f.imageData) })

/-- One entry of `FlowSummary.suggestedEmails`. -/
structure Suggestion where
  type : String
  name : String
  context : String
deriving DecidableEq, Repr

/-- One entry of `FlowSummary.flowSteps`. -/
structure FlowStep where
  step : Nat
  frameName : String
  purpose : String
  thumbnail : Option String
  keyElements : List String
deriving DecidableEq, Repr

/-- The combined flow summary record built by `generateCombinedFlowSummary`. -/
structure FlowSummary where
  productType : String
  summary : String
  screenCount : Nat
  flowSteps : List FlowStep
  suggestedEmails : List Suggestion
  overallConfidence : ℚ
deriving DecidableEq, Repr

/-- The `uniqueEmails` construction of `generateCombinedFlowSummary`
(`src/ui.ts` lines 838-846): deduplicate the suggested email types with a JS
`Set` (first occurrences, insertion order), then for each type take the
fields of the first analysis carrying it (`find`), with JS `||` defaults. -/
def suggestionFor (frameAnalyses : List AnalysisWithImage) (t : String) : Suggestion :=
  match frameAnalyses.find? (fun f => f.suggestedEmailType == t) with
  | some a => { type := t, name := jsOr (some a.suggestedEmailName) t,
                context := jsOr (some a.emailContext) "" }
  | none => { type := t, name := t, context := "" }

def uniqueEmailsOf (frameAnalyses : List AnalysisWithImage) : List Suggestion :=
  (jsSetDedupAux [] (frameAnalyses.map (fun f => f.suggestedEmailType))).map
    (suggestionFor frameAnalyses)

/-- The `flowSteps` construction (1-based index over the input order). -/
def flowStepsOf (i : Nat) : List AnalysisWithImage → List FlowStep
  | [] => []
  | a :: as =>
    { step := i + 1, frameName := a.frameName, purpose := a.userFlowPurpose,
      thumbnail := a.imageData, keyElements := a.keyElements } :: flowStepsOf (i + 1) as

/-- The product-type keyword scan over the lowercased flow purposes (the
ordered if-chain of `generateCombinedFlowSummary`, lines 801-827). Returns
(productType, productDescription). -/
def productTypeOf (frameAnalyses : List AnalysisWithImage) : String × String :=
  let purposes := frameAnalyses.map (fun f => lowerStr f.userFlowPurpose)
  if purposes.any (fun p => includesStr p "checkout" || includesStr p "cart" ||
      includesStr p "order" || includesStr p "e-commerce") then
    ("E-commerce Platform",
     "This appears to be an e-commerce or shopping application with a complete purchase flow.")
  else if purposes.any (fun p => includesStr p "dashboard" || includesStr p "overview" ||
      includesStr p "analytics") then
    ("SaaS Dashboard",
     "This appears to be a SaaS product or dashboard application for managing data and workflows.")
  else if purposes.any (fun p => includesStr p "booking" || includesStr p "appointment" ||
      includesStr p "schedule") then
    ("Booking Platform",
     "This appears to be a booking or scheduling application for appointments and reservations.")
  else if purposes.any (fun p => includesStr p "login" || includesStr p "registration" ||
      includesStr p "auth") then
    ("Web/Mobile Application",
     "This appears to be an application with user authentication and account management features.")
  else
    ("Application",
     "This design contains multiple screens that form a user journey through the application.")

/-- `generateCombinedFlowSummary` of `src/ui.ts` (lines 796-860). The aggregate
confidence is the arithmetic mean of the analyses' confidences (the rational
mean; on the empty input the source divides 0 by 0, which no claim exercises). -/
def generateCombinedFlowSummary (frameAnalyses : List AnalysisWithImage) : FlowSummary :=
  let pt := productTypeOf frameAnalyses
  let screenCount := frameAnalyses.length
  { productType := pt.1,
    summary := "This " ++ lowerStr pt.1 ++ " design contains " ++ toString screenCount ++
      " screen" ++ (if 1 < screenCount then "s" else "") ++
      " that guide users through a complete flow. " ++ pt.2,
    screenCount := screenCount,
    flowSteps := flowStepsOf 0 frameAnalyses,
    suggestedEmails := uniqueEmailsOf frameAnalyses,
    overallConfidence := (frameAnalyses.map (fun f => f.confidence)).sum / (screenCount : ℚ) }

/-- The ordered heuristic keyword groups of `analyzeNode`, paired with the
category each assigns: signup/welcome first, then checkout/order, then
password reset, then email verification. -/
def heuristicGroups : List ((String → Bool) × String) :=
  [(isSignupFlow, "welcome_email"),
   (isCheckoutFlow, "order_confirmation"),
   (isPasswordResetFlow, "password_reset"),
   (isEmailVerificationFlow, "email_verification")]

/-- Example screen: a 400x800 signup frame. -/
def exNode1 : FigNode := .node "1:1" "Sign Up" "FRAME" "" 400 800 []

/-- Example screen: a 400x800 checkout frame. -/
def exNode2 : FigNode := .node "1:2" "Checkout" "FRAME" "" 400 800 []

/-- Example screen: a 400x800 password-reset frame. -/
def exNode3 : FigNode := .node "1:3" "Reset Password" "FRAME" "" 400 800 []

/-- Example screen: a frame below the 200 px threshold whose name matches the
signup patterns. -/
def exSmallNode : FigNode := .node "1:4" "Sign Up" "FRAME" "" 100 100 []

/-- Request frame for the signup screen. -/
def exFrameData : FrameData :=
  { name := "Sign Up", id := "1:1", textContent := [], childNodes := [],
    width := 400, height := 800 }

/-- The opportunity the heuristic pass emits for `exNode1`. -/
def exOpp1 : EmailOpportunity :=
  { id := "opp_1:1", type := "welcome_email", frameName := "Sign Up", frameId := "1:1",
    confidence := mkRat 9 10,
    context := { productType := none, userAction := some "signed_up",
                 detectedVariables := ["user_name", "email", "verify_link"] },
    frameContent := some { textContent := [], childNodes := [⟨"Sign Up", "FRAME"⟩],
                           width := 400, height := 800 },
    aiAnalysis := none }

/-- The opportunity the heuristic pass emits for `exNode2`. -/
def exOpp2 : EmailOpportunity :=
  { id := "opp_1:2", type := "order_confirmation", frameName := "Checkout", frameId := "1:2",
    confidence := mkRat 19 20,
    context := { productType := some "e-commerce", userAction := some "placed_order",
                 detectedVariables := ["order_number", "customer_name", "total",
                                       "items", "shipping_address"] },
    frameContent := some { textContent := [], childNodes := [⟨"Checkout", "FRAME"⟩],
                           width := 400, height := 800 },
    aiAnalysis := none }

/-- A parsed response item whose numeric confidence 1.5 lies outside [0,1]. -/
def exBigItem : RawAnalysisItem :=
  { frameId := some "1:1", frameName := none, detectedPurpose := none,
    suggestedEmailType := some "welcome_email", suggestedEmailName := none,
    confidence := some (mkRat 3 2), reasoning := none, suggestedVariables := none }

/-- A text-analysis record for frame `1:2` only (the response omits frame
`1:1`). -/
def exItemB : FlowAnalysis :=
  { frameId := "1:2", frameName := "Checkout", detectedPurpose := "Checkout flow",
    suggestedEmailType := "order_confirmation", suggestedEmailName := "Order Confirmation",
    confidence := mkRat 49 50, reasoning := "order keywords", suggestedVariables := ["order_number"] }

/-- Vision request frames. -/
def exImg1 : FrameImage := { frameId := "1:1", frameName := "Login", imageData := "img1" }

def exImg2 : FrameImage := { frameId := "1:2", frameName := "Checkout", imageData := "img2" }

def exImg3 : FrameImage := { frameId := "1:3", frameName := "Cart", imageData := "img3" }

/-- A fully populated parsed vision object. -/
def exRawVision : RawVisionItem :=
  { designSummary := some "A login screen", userFlowPurpose := some "Login step",
    keyElements := some ["Email input"], suggestedEmailType := some "welcome_email",
    suggestedEmailName := some "Login Notification", emailContext := some "login context",
    confidence := some (mkRat 22 25) }

/-- A parsed vision object with every field missing. -/
def exEmptyVision : RawVisionItem :=
  { designSummary := none, userFlowPurpose := none, keyElements := none,
    suggestedEmailType := none, suggestedEmailName := none, emailContext := none,
    confidence := none }

/-- Three vision calls where the 2nd frame's call resolves but its response
text is unparseable garbage. -/
def exVisionInputs : List (FrameImage × VisionCallResult) :=
  [(exImg1, .success "r1" (some exRawVision)),
   (exImg2, .success "garbage" none),
   (exImg3, .success "r3" (some exRawVision))]

/-- Flow-summary input: first screen assigned `welcome_email`. -/
def exAnalysis1 : AnalysisWithImage :=
  { frameId := "1:1", frameName := "Sign Up", designSummary := "s1",
    userFlowPurpose := "User registration", keyElements := [],
    suggestedEmailType := "welcome_email", suggestedEmailName := "Welcome Email",
    emailContext := "greet the new user", confidence := mkRat 23 25, imageData := none }

/-- Flow-summary input: a later screen repeating `welcome_email` with
different display fields. -/
def exAnalysis2 : AnalysisWithImage :=
  { frameId := "1:2", frameName := "Login", designSummary := "s2",
    userFlowPurpose := "Authentication", keyElements := [],
    suggestedEmailType := "welcome_email", suggestedEmailName := "Login Notification",
    emailContext := "new device login", confidence := mkRat 22 25, imageData := none }

/-- Flow-summary input: a screen with a second category. -/
def exAnalysis3 : AnalysisWithImage :=
  { frameId := "1:3", frameName := "Cart", designSummary := "s3",
    userFlowPurpose := "Shopping cart", keyElements := [],
    suggestedEmailType := "abandoned_cart", suggestedEmailName := "Abandoned Cart Reminder",
    emailContext := "items left in cart", confidence := mkRat 17 20, imageData := none }

/-- The three-screen flow-summary input with a repeated category. -/
def exFas : List AnalysisWithImage := [exAnalysis1, exAnalysis2, exAnalysis3]

/-- The suggestion the dedup law predicts for `welcome_email` over `exFas`. -/
def exSugg1 : Suggestion :=
  { type := "welcome_email", name := "Welcome Email", context := "greet the new user" }

/-- Three vision calls, the first of which throws. -/
def exFailInputs : List (FrameImage × VisionCallResult) := [(exImg1, .failure)]

/-- Bounds of every confidence constant the heuristic pass can emit. -/
theorem heuristicConfBounds :
    ((0 : ℚ) ≤ mkRat 9 10 ∧ mkRat 9 10 ≤ 1) ∧
    ((0 : ℚ) ≤ mkRat 19 20 ∧ mkRat 19 20 ≤ 1) ∧
    ((0 : ℚ) ≤ mkRat 23 25 ∧ mkRat 23 25 ≤ 1) ∧
    ((0 : ℚ) ≤ mkRat 22 25 ∧ mkRat 22 25 ≤ 1) ∧
    ((0 : ℚ) ≤ mkRat 7 10 ∧ mkRat 7 10 ≤ 1) ∧
    ((0 : ℚ) ≤ mkRat 1 2 ∧ mkRat 1 2 ≤ 1) := by decide

theorem analyzeNode_fields (n : FigNode) (name : String) (o : EmailOpportunity)
    (h : analyzeNode n name = some o) :
    o.id = "opp_" ++ n.id ∧ o.frameId = n.id ∧ 0 ≤ o.confidence ∧ o.confidence ≤ 1 := by
  simp only [analyzeNode] at h
  split_ifs at h with h1 h2 h3 h4 h5
  · injection h with h0; subst h0
    exact ⟨rfl, rfl, heuristicConfBounds.1.1, heuristicConfBounds.1.2⟩
  · injection h with h0; subst h0
    exact ⟨rfl, rfl, heuristicConfBounds.2.1.1, heuristicConfBounds.2.1.2⟩
  · injection h with h0; subst h0
    exact ⟨rfl, rfl, heuristicConfBounds.2.2.1.1, heuristicConfBounds.2.2.1.2⟩
  · injection h with h0; subst h0
    exact ⟨rfl, rfl, heuristicConfBounds.2.2.2.1.1, heuristicConfBounds.2.2.2.1.2⟩
  · injection h with h0; subst h0
    exact ⟨rfl, rfl, heuristicConfBounds.2.2.2.2.1.1, heuristicConfBounds.2.2.2.2.1.2⟩

theorem detect_mem (scanAll : Bool) (ns : List FigNode) (o : EmailOpportunity)
    (h : o ∈ detectEmailOpportunities scanAll ns) :
    ∃ n ∈ ns, o.id = "opp_" ++ n.id ∧ o.frameId = n.id ∧
      0 ≤ o.confidence ∧ o.confidence ≤ 1 := by
  induction ns with
  | nil => simp [detectEmailOpportunities] at h
  | cons n ns ih =>
    simp only [detectEmailOpportunities] at h
    split_ifs at h with h1 h2 h3
    · obtain ⟨m, hm, hp⟩ := ih h
      exact ⟨m, List.mem_cons_of_mem _ hm, hp⟩
    · rcases List.mem_cons.mp h with rfl | hmem
      · exact ⟨n, List.mem_cons_self n ns, rfl, rfl,
          heuristicConfBounds.2.2.2.2.2.1, heuristicConfBounds.2.2.2.2.2.2⟩
      · obtain ⟨m, hm, hp⟩ := ih hmem
        exact ⟨m, List.mem_cons_of_mem _ hm, hp⟩
    · cases hma : analyzeNode n (lowerStr n.name) with
      | none =>
        rw [hma] at h
        obtain ⟨m, hm, hp⟩ := ih h
        exact ⟨m, List.mem_cons_of_mem _ hm, hp⟩
      | some o2 =>
        rw [hma] at h
        rcases List.mem_cons.mp h with rfl | hmem
        · obtain ⟨ha, hb, hc, hd⟩ := analyzeNode_fields n (lowerStr n.name) _ hma
          exact ⟨n, List.mem_cons_self n ns, ha, hb, hc, hd⟩
        · obtain ⟨m, hm, hp⟩ := ih hmem
          exact ⟨m, List.mem_cons_of_mem _ hm, hp⟩
    · obtain ⟨m, hm, hp⟩ := ih h
      exact ⟨m, List.mem_cons_of_mem _ hm, hp⟩

/-- C7: with no AI configured, heuristic-only detection over three screens
named "Sign Up", "Checkout" and "Reset Password" yields the categories
`welcome_email`, `order_confirmation` and `password_reset` with confidences
0.9, 0.95 and 0.92 (as rationals: 9/10, 19/20, 23/25) respectively. -/
theorem scenario_a_heuristics :
    (detectEmailOpportunities false [exNode1, exNode2, exNode3]).map
      (fun o => (o.type, o.confidence)) =
      [("welcome_email", mkRat 9 10), ("order_confirmation", mkRat 19 20),
       ("password_reset", mkRat 23 25)] := by decide

/-- C9: heuristic detection is a pure function of the scanned node list, so
re-running it on an unchanged document yields the identical opportunity list
(ids and categories included), and every emitted opportunity's id is the
string "opp_" followed by the id of the screen it came from (its `frameId`). -/
theorem detect_idempotent_stable_ids (scanAll : Bool) (ns ms : List FigNode)
    (heq : ns = ms) :
    detectEmailOpportunities scanAll ns = detectEmailOpportunities scanAll ms ∧
    ∀ o ∈ detectEmailOpportunities scanAll ns,
      ∃ n ∈ ns, o.id = "opp_" ++ n.id ∧ o.frameId = n.id := by
  subst heq
  refine ⟨rfl, fun o ho => ?_⟩
  obtain ⟨n, hn, h1, h2, _, _⟩ := detect_mem scanAll ns o ho
  exact ⟨n, hn, h1, h2⟩

/-- C9 witness: the signup screen's opportunity carries id "opp_1:1" derived
from its frame id "1:1". -/
theorem detect_idempotent_stable_ids_wit :
    detectEmailOpportunities false [exNode1] = detectEmailOpportunities false [exNode1] ∧
    ∃ n ∈ [exNode1], exOpp1.id = "opp_" ++ n.id ∧ exOpp1.frameId = n.id :=
  ⟨(detect_idempotent_stable_ids false [exNode1] [exNode1] rfl).1,
   (detect_idempotent_stable_ids false [exNode1] [exNode1] rfl).2 exOpp1 (by decide)⟩

/-- C10: in both detection modes, a frame or component whose width or height
is below 200 contributes no opportunity at all: dropping it from the scanned
node list leaves the detection result unchanged, whatever its name. -/
theorem small_frames_skipped (scanAll : Bool) (n : FigNode) (ns : List FigNode)
    (hsmall : n.width < 200 ∨ n.height < 200) :
    detectEmailOpportunities scanAll (n :: ns) = detectEmailOpportunities scanAll ns := by
  simp only [detectEmailOpportunities]
  split_ifs <;> rfl

/-- C10 witness: a 100x100 frame named "Sign Up" (a name matching the signup
keyword group) is silently excluded. -/
theorem small_frames_skipped_wit :
    (exSmallNode.width < 200 ∨ exSmallNode.height < 200) ∧
    detectEmailOpportunities false [exSmallNode] = detectEmailOpportunities false [] :=
  ⟨Or.inl (by decide), small_frames_skipped false exSmallNode [] (Or.inl (by decide))⟩

/-- C6: the heuristic classifier tests the keyword groups in the fixed order
signup/welcome, checkout/order, password-reset, email-verification, and
whenever any group matches the (lowercased) name, the category assigned by
`analyzeNode` is that of the first matching group in that order — a priority
policy, never a best-match search. -/
theorem heuristic_first_match_wins (n : FigNode) (name : String)
    (hmatch : heuristicGroups.any (fun g => g.1 name) = true) :
    (analyzeNode n name).map (fun o => o.type) =
      (heuristicGroups.find? (fun g => g.1 name)).map (fun g => g.2) := by
  cases h1 : isSignupFlow name <;> cases h2 : isCheckoutFlow name <;>
    cases h3 : isPasswordResetFlow name <;> cases h4 : isEmailVerificationFlow name <;>
    simp_all [analyzeNode, heuristicGroups]

/-- C6 witness: "forgot password signup" matches both the signup group and the
password-reset group; the classification is the signup group's category
`welcome_email`, because that group is tested earlier. -/
theorem heuristic_first_match_wins_wit :
    heuristicGroups.any (fun g => g.1 "forgot password signup") = true ∧
    (analyzeNode exNode1 "forgot password signup").map (fun o => o.type) =
      (heuristicGroups.find? (fun g => g.1 "forgot password signup")).map (fun g => g.2) ∧
    (analyzeNode exNode1 "forgot password signup").map (fun o => o.type) =
      some "welcome_email" :=
  ⟨by decide,
   heuristic_first_match_wins exNode1 "forgot password signup" (by decide),
   by decide⟩

/-- C1 counterexample: a text-analysis record whose numeric confidence is 1.5
is stored on the fused opportunity unchanged — the resulting confidence lies
outside [0,1], so confidences are not clamped before being stored. -/
theorem confidence_unclamped_cex :
    ((applyTextAnalysis (detectEmailOpportunities false [exNode1])
        (parseAnalysisResponse (some [exBigItem]) [])).map (fun o => o.confidence)) =
      [mkRat 3 2] ∧ ¬(mkRat 3 2 ≤ (1 : ℚ)) := by decide

/-- C1 amended: every opportunity emitted by the heuristic pass has confidence
in [0,1]; a confidence parsed from a text-analysis record defaults to 0.5 when
missing or not a number but is otherwise taken verbatim — no clamping — and the
text-channel merge stores the record's confidence on the opportunity
unchanged. -/
theorem confidence_amended (scanAll : Bool) (nodes : List FigNode)
    (items : List RawAnalysisItem) (frames : List FrameData) :
    (∀ o ∈ detectEmailOpportunities scanAll nodes, 0 ≤ o.confidence ∧ o.confidence ≤ 1) ∧
    ((parseAnalysisResponse (some items) frames).map (fun fa => fa.confidence) =
      items.map (fun it => it.confidence.getD (mkRat 1 2))) ∧
    (∀ (o : EmailOpportunity) (it : FlowAnalysis),
      (updateOpp o it).confidence = it.confidence) := by
  refine ⟨fun o ho => ?_, ?_, fun o it => rfl⟩
  · obtain ⟨n, _, _, _, h3, h4⟩ := detect_mem scanAll nodes o ho
    exact ⟨h3, h4⟩
  · simp [parseAnalysisResponse, List.map_map]
    exact fun a _ => rfl

/-- C1 amended witness: the heuristic signup opportunity's confidence 0.9 is
in range, while the parsed confidence of `exBigItem` (1.5) is passed through. -/
theorem confidence_amended_wit :
    (0 ≤ exOpp1.confidence ∧ exOpp1.confidence ≤ 1) ∧
    (parseAnalysisResponse (some [exBigItem]) []).map (fun fa => fa.confidence) =
      [mkRat 3 2] :=
  ⟨(confidence_amended false [exNode1] [exBigItem] []).1 exOpp1 (by decide),
   ((confidence_amended false [exNode1] [exBigItem] []).2.1).trans (by decide)⟩

/-- C8 counterexample: a vision response object with no numeric confidence
field parses with confidence 0.7, not the text channel's 0.5 — the vision
channel does not mirror the text channel's confidence default. -/
theorem vision_default_cex :
    (parseVisionResponse exImg1 "" (some exEmptyVision)).confidence = mkRat 7 10 ∧
    ¬(mkRat 7 10 = mkRat 1 2) := by decide

/-- C8 amended: in the vision channel, a parsed object with a missing or
non-numeric confidence receives the default 0.7 (not the text channel's 0.5);
a missing or empty category defaults to `generic_transactional`; the 0.5
confidence appears only in the no-JSON local fallback. -/
theorem vision_defaults_amended (f : FrameImage) (raw : String) (p : RawVisionItem) :
    (p.confidence = none → (parseVisionResponse f raw (some p)).confidence = mkRat 7 10) ∧
    ((p.suggestedEmailType = none ∨ p.suggestedEmailType = some "") →
      (parseVisionResponse f raw (some p)).suggestedEmailType = "generic_transactional") ∧
    (parseVisionResponse f raw none).confidence = mkRat 1 2 := by
  refine ⟨fun h => ?_, fun h => ?_, rfl⟩
  · simp [parseVisionResponse, h]
  · rcases h with h | h <;> simp [parseVisionResponse, jsOr, h]

/-- C8 amended witness: the all-missing vision object gets confidence 0.7 and
category `generic_transactional`. -/
theorem vision_defaults_amended_wit :
    (parseVisionResponse exImg1 "" (some exEmptyVision)).confidence = mkRat 7 10 ∧
    (parseVisionResponse exImg1 "" (some exEmptyVision)).suggestedEmailType =
      "generic_transactional" :=
  ⟨(vision_defaults_amended exImg1 "" exEmptyVision).1 rfl,
   (vision_defaults_amended exImg1 "" exEmptyVision).2.1 (Or.inl rfl)⟩

/-- C2 counterexample: when the 2nd of 3 frames' vision call resolves but its
response text is unparseable ("garbage"), the channel still emits 3 analyses
in order, but the 2nd is not the fixed fallback object: its designSummary is
the raw text (not "Analysis failed") and its confidence is 0.5 (not 0.3). -/
theorem vision_parse_failure_cex :
    (visionHandler exVisionInputs).length = 3 ∧
    (visionHandler exVisionInputs)[1]? =
      some { frameId := "1:2", frameName := "Checkout", designSummary := "garbage",
             userFlowPurpose := "Unknown", keyElements := [],
             suggestedEmailType := "generic_transactional",
             suggestedEmailName := "Transactional Email", emailContext := "",
             confidence := mkRat 1 2 } ∧
    ¬(mkRat 1 2 = mkRat 3 10) ∧ ¬(("garbage" : String) = "Analysis failed") := by decide

/-- C2 amended: the vision handler processes frames one at a time in input
order, emitting exactly one analysis per frame; a frame whose call throws gets,
for that frame only, the fixed fallback (designSummary "Analysis failed",
category `generic_transactional`, confidence 0.3); a frame whose call resolves
but whose response has no parseable JSON object gets a different local
fallback (designSummary = first 200 characters of the raw text, else "Could
not analyze"; confidence 0.5); a parsed frame gets its parsed analysis. In
every case the remaining frames are unaffected. -/
theorem vision_channel_amended (inputs : List (FrameImage × VisionCallResult)) (i : Nat)
    (h : i < inputs.length) :
    (visionHandler inputs).length = inputs.length ∧
    (inputs[i].2 = VisionCallResult.failure →
      (visionHandler inputs)[i]? =
        some { frameId := inputs[i].1.frameId, frameName := inputs[i].1.frameName,
               designSummary := "Analysis failed", userFlowPurpose := "Unknown",
               keyElements := [], suggestedEmailType := "generic_transactional",
               suggestedEmailName := "Transactional Email", emailContext := "",
               confidence := mkRat 3 10 }) ∧
    (∀ raw, inputs[i].2 = VisionCallResult.success raw none →
      (visionHandler inputs)[i]? =
        some { frameId := inputs[i].1.frameId, frameName := inputs[i].1.frameName,
               designSummary := jsOr (some (strTake raw 200)) "Could not analyze",
               userFlowPurpose := "Unknown", keyElements := [],
               suggestedEmailType := "generic_transactional",
               suggestedEmailName := "Transactional Email", emailContext := "",
               confidence := mkRat 1 2 }) ∧
    (∀ raw p, inputs[i].2 = VisionCallResult.success raw (some p) →
      (visionHandler inputs)[i]? =
        some (parseVisionResponse inputs[i].1 raw (some p))) := by
  have hbase : (visionHandler inputs)[i]? =
      some (visionAnalyzeStep inputs[i].1 inputs[i].2) := by
    simp [visionHandler, List.getElem?_map, List.getElem?_eq_getElem h]
  refine ⟨by simp [visionHandler], fun he => ?_, fun raw he => ?_, fun raw p he => ?_⟩ <;>
    rw [hbase, he] <;> rfl

/-- C2 amended witness: a single throwing call yields exactly its fixed
fallback analysis. -/
theorem vision_channel_amended_wit :
    (visionHandler exFailInputs).length = exFailInputs.length ∧
    (visionHandler exFailInputs)[0]? =
      some { frameId := "1:1", frameName := "Login", designSummary := "Analysis failed",
             userFlowPurpose := "Unknown", keyElements := [],
             suggestedEmailType := "generic_transactional",
             suggestedEmailName := "Transactional Email", emailContext := "",
             confidence := mkRat 3 10 } :=
  ⟨(vision_channel_amended exFailInputs 0 (by decide)).1,
   (vision_channel_amended exFailInputs 0 (by decide)).2.1 rfl⟩

theorem mem_updateFirst (opps : List EmailOpportunity) (item : FlowAnalysis)
    (o : EmailOpportunity) (h : o ∈ updateFirst opps item) :
    o ∈ opps ∨ ∃ o0 ∈ opps, o = updateOpp o0 item := by
  induction opps with
  | nil => simp [updateFirst] at h
  | cons o1 os ih =>
    simp only [updateFirst] at h
    split_ifs at h with hb
    · rcases List.mem_cons.mp h with rfl | hmem
      · exact Or.inr ⟨o1, List.mem_cons_self o1 os, rfl⟩
      · exact Or.inl (List.mem_cons_of_mem _ hmem)
    · rcases List.mem_cons.mp h with rfl | hmem
      · exact Or.inl (List.mem_cons_self o os)
      · rcases ih hmem with hm | ⟨o0, ho0, he⟩
        · exact Or.inl (List.mem_cons_of_mem _ hm)
        · exact Or.inr ⟨o0, List.mem_cons_of_mem _ ho0, he⟩

theorem applyTextAnalysis_type_conf (items : List FlowAnalysis) :
    ∀ (opps : List EmailOpportunity) (o : EmailOpportunity),
      o ∈ applyTextAnalysis opps items →
      (∃ o0 ∈ opps, o.type = o0.type ∧ o.confidence = o0.confidence) ∨
      (∃ it ∈ items, o.type = it.suggestedEmailType ∧ o.confidence = it.confidence) := by
  induction items with
  | nil => exact fun opps o h => Or.inl ⟨o, h, rfl, rfl⟩
  | cons item items ih =>
    intro opps o h
    have h2 : o ∈ applyTextAnalysis (updateFirst opps item) items := h
    rcases ih (updateFirst opps item) o h2 with ⟨o0, ho0, hty, hc⟩ | ⟨it, hit, hty, hc⟩
    · rcases mem_updateFirst opps item o0 ho0 with hm | ⟨o1, ho1, he⟩
      · exact Or.inl ⟨o0, hm, hty, hc⟩
      · subst he
        exact Or.inr ⟨item, List.mem_cons_self item items, hty, hc⟩
    · exact Or.inr ⟨it, List.mem_cons_of_mem _ hit, hty, hc⟩

/-- C5 counterexample: the uniform stub emitted when no JSON array can be
parsed has reasoning "AI analysis failed, using fallback", not "analysis
failed"; and when the network call itself fails, the channel does not emit
stubs at all — the handler answers with error 500. -/
theorem text_stub_cex :
    ((parseAnalysisResponse none [exFrameData]).map (fun fa => fa.reasoning) =
      ["AI analysis failed, using fallback"]) ∧
    ¬(("AI analysis failed, using fallback" : String) = "analysis failed") ∧
    analyzeHandler [exFrameData] none = Except.error 500 := by
  exact ⟨by decide, by decide, rfl⟩

/-- C5 amended: when the response body has no parseable JSON array, the
channel emits exactly one stub per requested screen, each with confidence 0.3,
category `generic_transactional` and reasoning "AI analysis failed, using
fallback", and the handler returns them as a success (never raising); when the
upstream call itself fails, the handler instead returns error 500 and no stubs.
Applying the stubs to the opportunity list leaves each screen's category either
untouched or overwritten with the valid category `generic_transactional` —
never an error value. -/
theorem text_stub_amended (frames : List FrameData) (opps : List EmailOpportunity) :
    ((parseAnalysisResponse none frames).length = frames.length) ∧
    (∀ fa ∈ parseAnalysisResponse none frames,
      fa.confidence = mkRat 3 10 ∧ fa.suggestedEmailType = "generic_transactional" ∧
      fa.reasoning = "AI analysis failed, using fallback") ∧
    (frames ≠ [] → analyzeHandler frames none = Except.error 500) ∧
    (frames ≠ [] → analyzeHandler frames (some none) =
      Except.ok (parseAnalysisResponse none frames)) ∧
    (∀ o ∈ applyTextAnalysis opps (parseAnalysisResponse none frames),
      o.type = "generic_transactional" ∨
        ∃ o0 ∈ opps, o.type = o0.type ∧ o.confidence = o0.confidence) := by
  refine ⟨by simp [parseAnalysisResponse], ?_, ?_, ?_, ?_⟩
  · intro fa hfa
    simp only [parseAnalysisResponse, List.mem_map] at hfa
    obtain ⟨f, _, rfl⟩ := hfa
    exact ⟨rfl, rfl, rfl⟩
  · intro hne
    cases frames with
    | nil => exact absurd rfl hne
    | cons f fs => rfl
  · intro hne
    cases frames with
    | nil => exact absurd rfl hne
    | cons f fs => rfl
  · intro o ho
    rcases applyTextAnalysis_type_conf _ opps o ho with ⟨o0, ho0, hty, hc⟩ | ⟨it, hit, hty, _⟩
    · exact Or.inr ⟨o0, ho0, hty, hc⟩
    · left
      simp only [parseAnalysisResponse, List.mem_map] at hit
      obtain ⟨f, _, rfl⟩ := hit
      exact hty

/-- C5 amended witness: for one requested screen the fallback stub carries the
documented values, call failure yields error 500, and applying the stub to the
matching heuristic opportunity overwrites its category with
`generic_transactional`. -/
theorem text_stub_amended_wit :
    ((fallbackAnalysis exFrameData).confidence = mkRat 3 10 ∧
     (fallbackAnalysis exFrameData).suggestedEmailType = "generic_transactional" ∧
     (fallbackAnalysis exFrameData).reasoning = "AI analysis failed, using fallback") ∧
    analyzeHandler [exFrameData] none = Except.error 500 ∧
    ((updateOpp exOpp1 (fallbackAnalysis exFrameData)).type = "generic_transactional" ∨
      ∃ o0 ∈ [exOpp1], (updateOpp exOpp1 (fallbackAnalysis exFrameData)).type = o0.type ∧
        (updateOpp exOpp1 (fallbackAnalysis exFrameData)).confidence = o0.confidence) :=
  ⟨(text_stub_amended [exFrameData] [exOpp1]).2.1 (fallbackAnalysis exFrameData) (by decide),
   (text_stub_amended [exFrameData] [exOpp1]).2.2.1 (by decide),
   (text_stub_amended [exFrameData] [exOpp1]).2.2.2.2
     (updateOpp exOpp1 (fallbackAnalysis exFrameData)) (by decide)⟩

theorem jsSetDedupAux_nodup_notin (l : List String) :
    ∀ seen : List String, (jsSetDedupAux seen l).Nodup ∧
      ∀ x ∈ jsSetDedupAux seen l, x ∉ seen := by
  induction l with
  | nil => intro seen; simp [jsSetDedupAux]
  | cons x xs ih =>
    intro seen
    simp only [jsSetDedupAux]
    split_ifs with hx
    · exact ih seen
    · obtain ⟨hn, hmem⟩ := ih (x :: seen)
      refine ⟨List.nodup_cons.mpr ⟨fun hc => ?_, hn⟩, ?_⟩
      · exact hmem x hc (List.mem_cons_self x seen)
      · intro y hy
        rcases List.mem_cons.mp hy with rfl | hy
        · exact hx
        · exact fun hyseen => hmem y hy (List.mem_cons_of_mem _ hyseen)

theorem jsSetDedupAux_sub (l : List String) :
    ∀ (seen : List String) (x : String), x ∈ jsSetDedupAux seen l → x ∈ l := by
  induction l with
  | nil => intro seen x h; simp [jsSetDedupAux] at h
  | cons y ys ih =>
    intro seen x h
    simp only [jsSetDedupAux] at h
    split_ifs at h with hy
    · exact List.mem_cons_of_mem _ (ih seen x h)
    · rcases List.mem_cons.mp h with rfl | h
      · exact List.mem_cons_self x ys
      · exact List.mem_cons_of_mem _ (ih (y :: seen) x h)

theorem jsSetDedupAux_covers (l : List String) :
    ∀ (seen : List String) (x : String), x ∈ l → x ∈ seen ∨ x ∈ jsSetDedupAux seen l := by
  induction l with
  | nil => intro seen x h; simp at h
  | cons y ys ih =>
    intro seen x h
    simp only [jsSetDedupAux]
    split_ifs with hy
    · rcases List.mem_cons.mp h with rfl | h
      · exact Or.inl hy
      · exact ih seen x h
    · rcases List.mem_cons.mp h with rfl | h
      · exact Or.inr (List.mem_cons_self x _)
      · rcases ih (y :: seen) x h with hs | hr
        · rcases List.mem_cons.mp hs with rfl | hs
          · exact Or.inr (List.mem_cons_self x _)
          · exact Or.inl hs
        · exact Or.inr (List.mem_cons_of_mem _ hr)

theorem find_first_split {α : Type} (p : α → Bool) (l : List α) (a : α)
    (h : l.find? p = some a) :
    p a = true ∧ ∃ pre post, l = pre ++ a :: post ∧ ∀ b ∈ pre, p b = false := by
  induction l with
  | nil => simp [List.find?] at h
  | cons x xs ih =>
    cases hp : p x with
    | true =>
      rw [List.find?_cons_of_pos _ hp] at h
      injection h with h
      subst h
      exact ⟨hp, [], xs, rfl, by simp⟩
    | false =>
      rw [List.find?_cons_of_neg _ (by simp [hp])] at h
      obtain ⟨hpa, pre, post, heq, hpre⟩ := ih h
      refine ⟨hpa, x :: pre, post, by rw [heq]; rfl, ?_⟩
      intro b hb
      rcases List.mem_cons.mp hb with rfl | hb
      · exact hp
      · exact hpre b hb

theorem find_exists_of_mem {α : Type} (p : α → Bool) (l : List α)
    (h : ∃ x ∈ l, p x = true) : ∃ a, l.find? p = some a := by
  induction l with
  | nil => simp at h
  | cons x xs ih =>
    cases hp : p x with
    | true => exact ⟨x, List.find?_cons_of_pos _ hp⟩
    | false =>
      obtain ⟨y, hy, hpy⟩ := h
      rcases List.mem_cons.mp hy with rfl | hy
      · exact absurd hpy (by simp [hp])
      · obtain ⟨a, ha⟩ := ih ⟨y, hy, hpy⟩
        exact ⟨a, by rw [List.find?_cons_of_neg _ (by simp [hp])]; exact ha⟩

theorem suggestionFor_type (fas : List AnalysisWithImage) (t : String) :
    (suggestionFor fas t).type = t := by
  unfold suggestionFor
  cases fas.find? (fun f => f.suggestedEmailType == t) <;> rfl

/-- C3: the flow summary's suggested-email list has at most one entry per
category (its projected categories are pairwise distinct), every screen's
category is represented, and each entry's name and context come from the first
screen in scan order whose category equals it (with the source's JS-falsy
default for an empty display name); later screens repeating the category are
skipped. -/
theorem flow_dedup_law (fas : List AnalysisWithImage) :
    ((generateCombinedFlowSummary fas).suggestedEmails.map (fun e => e.type)).Nodup ∧
    (∀ a ∈ fas, ∃ e ∈ (generateCombinedFlowSummary fas).suggestedEmails,
      e.type = a.suggestedEmailType) ∧
    (∀ e ∈ (generateCombinedFlowSummary fas).suggestedEmails,
      ∃ pre a post, fas = pre ++ a :: post ∧ a.suggestedEmailType = e.type ∧
        (∀ b ∈ pre, b.suggestedEmailType ≠ e.type) ∧
        e.name = (if a.suggestedEmailName = "" then e.type else a.suggestedEmailName) ∧
        e.context = a.emailContext) := by
  have hse : (generateCombinedFlowSummary fas).suggestedEmails = uniqueEmailsOf fas := rfl
  refine ⟨?_, ?_, ?_⟩
  · rw [hse]
    have h1 : (uniqueEmailsOf fas).map (fun e => e.type) =
        jsSetDedupAux [] (fas.map fun f => f.suggestedEmailType) := by
      unfold uniqueEmailsOf
      rw [List.map_map]
      conv_rhs =>
        rw [← List.map_id (jsSetDedupAux [] (fas.map fun f => f.suggestedEmailType))]
      refine List.map_congr_left fun t _ => ?_
      simpa using suggestionFor_type fas t
    rw [h1]
    exact (jsSetDedupAux_nodup_notin _ []).1
  · intro a ha
    have hmm := List.mem_map_of_mem (fun f => f.suggestedEmailType) ha
    rcases jsSetDedupAux_covers (fas.map fun f => f.suggestedEmailType) [] _ hmm with hx | hx
    · exact absurd hx (List.not_mem_nil _)
    · exact ⟨suggestionFor fas a.suggestedEmailType,
        List.mem_map_of_mem (suggestionFor fas) hx, suggestionFor_type fas _⟩
  · intro e he
    rw [hse] at he
    obtain ⟨t, ht, rfl⟩ := List.mem_map.mp he
    have htypes : t ∈ fas.map (fun f => f.suggestedEmailType) := jsSetDedupAux_sub _ [] t ht
    obtain ⟨f0, hf0, hft⟩ := List.mem_map.mp htypes
    have hex : ∃ x ∈ fas, (fun f => f.suggestedEmailType == t) x = true :=
      ⟨f0, hf0, by simp [hft]⟩
    obtain ⟨a, hfind⟩ := find_exists_of_mem _ fas hex
    obtain ⟨hpa, pre, post, heq, hpre⟩ := find_first_split _ fas a hfind
    have hat : a.suggestedEmailType = t := by simpa using hpa
    have hsugg : suggestionFor fas t =
        { type := t, name := jsOr (some a.suggestedEmailName) t,
          context := jsOr (some a.emailContext) "" } := by
      unfold suggestionFor
      rw [hfind]
    refine ⟨pre, a, post, heq, ?_, ?_, ?_, ?_⟩
    · rw [suggestionFor_type]
      exact hat
    · intro b hb
      rw [suggestionFor_type]
      simpa using hpre b hb
    · simp [hsugg, suggestionFor_type, jsOr]
    · rw [hsugg]
      by_cases hc : a.emailContext = "" <;> simp [jsOr, hc]

/-- C3 witness: over `exFas` (two screens suggesting `welcome_email`, then one
suggesting `abandoned_cart`) the `welcome_email` suggestion carries the first
screen's name and context. -/
theorem flow_dedup_law_wit :
    exSugg1 ∈ (generateCombinedFlowSummary exFas).suggestedEmails ∧
    ∃ pre a post, exFas = pre ++ a :: post ∧ a.suggestedEmailType = exSugg1.type ∧
      (∀ b ∈ pre, b.suggestedEmailType ≠ exSugg1.type) ∧
      exSugg1.name = (if a.suggestedEmailName = "" then exSugg1.type
                      else a.suggestedEmailName) ∧
      exSugg1.context = a.emailContext :=
  ⟨by decide, (flow_dedup_law exFas).2.2 exSugg1 (by decide)⟩

theorem updateOpp_frameId (o : EmailOpportunity) (it : FlowAnalysis) :
    (updateOpp o it).frameId = o.frameId := rfl

theorem updateOpp_updateOpp (o : EmailOpportunity) (a b : FlowAnalysis) :
    updateOpp (updateOpp o a) b = updateOpp o b := rfl

theorem updateFirst_frameIds (opps : List EmailOpportunity) (item : FlowAnalysis) :
    (updateFirst opps item).map (fun o => o.frameId) = opps.map (fun o => o.frameId) := by
  induction opps with
  | nil => rfl
  | cons o os ih =>
    simp only [updateFirst]
    split_ifs with hb
    · simp [updateOpp_frameId]
    · simp only [List.map_cons, ih]

theorem updateFirst_map_fuse (opps : List EmailOpportunity) (item : FlowAnalysis)
    (items : List FlowAnalysis) (hnd : (opps.map (fun o => o.frameId)).Nodup) :
    (updateFirst opps item).map (fun o =>
        match lastMatch items o.frameId with
        | none => o
        | some it => updateOpp o it) =
      opps.map (fun o =>
        match lastMatch (item :: items) o.frameId with
        | none => o
        | some it => updateOpp o it) := by
  induction opps with
  | nil => rfl
  | cons o os ih =>
    rw [List.map_cons] at hnd
    obtain ⟨hnotin, hnd2⟩ := List.nodup_cons.mp hnd
    simp only [updateFirst]
    split_ifs with hb
    · have hfid : o.frameId = item.frameId := by simpa using hb
      simp only [List.map_cons]
      congr 1
      · show (match lastMatch items o.frameId with
            | none => updateOpp o item
            | some it => updateOpp (updateOpp o item) it) =
          (match lastMatch (item :: items) o.frameId with
            | none => o
            | some it => updateOpp o it)
        simp only [lastMatch]
        cases hlm : lastMatch items o.frameId with
        | some r => simp [updateOpp_updateOpp]
        | none =>
          have hbi : (item.frameId == o.frameId) = true := by simp [hfid]
          simp [hbi]
      · refine List.map_congr_left fun o2 ho2 => ?_
        have hne : (item.frameId == o2.frameId) = false := by
          simp only [beq_eq_false_iff_ne, ne_eq]
          intro hcc
          exact hnotin (by
            rw [hfid, hcc]
            exact List.mem_map_of_mem (fun o => o.frameId) ho2)
        simp only [lastMatch]
        cases hlm : lastMatch items o2.frameId with
        | some r => simp
        | none => simp [hne]
    · have hfid : o.frameId ≠ item.frameId := by simpa using hb
      simp only [List.map_cons]
      congr 1
      · have hbi : (item.frameId == o.frameId) = false := by
          simp only [beq_eq_false_iff_ne, ne_eq]
          exact fun hcc => hfid hcc.symm
        simp only [lastMatch]
        cases hlm : lastMatch items o.frameId with
        | some r => simp
        | none => simp [hbi]
      · exact ih hnd2

theorem applyTextAnalysis_eq_specJoin (items : List FlowAnalysis) :
    ∀ opps : List EmailOpportunity, (opps.map (fun o => o.frameId)).Nodup →
      applyTextAnalysis opps items = specJoinById opps items := by
  induction items with
  | nil =>
    intro opps _
    show opps = specJoinById opps []
    simp [specJoinById, lastMatch]
  | cons item items ih =>
    intro opps hnd
    have h1 : applyTextAnalysis opps (item :: items) =
        applyTextAnalysis (updateFirst opps item) items := rfl
    rw [h1, ih (updateFirst opps item) (by rw [updateFirst_frameIds]; exact hnd)]
    unfold specJoinById
    exact updateFirst_map_fuse opps item items hnd

/-- C4: provided the opportunities carry pairwise distinct frame ids (as the
detection pass produces them, one per scanned node), the text-channel merge is
exactly the join-by-id `specJoinById`: every opportunity whose frame id matches
some response record is updated (type, confidence and stored analysis) from
the matching record (the last one, when the response duplicates an id), every
opportunity with no matching record is kept exactly in its pre-fusion state,
and the merge is total and length-preserving — a response that omits, reorders
or duplicates entries, or contains fewer records than screens, never fails. -/
theorem text_join_by_id (opps : List EmailOpportunity) (items : List FlowAnalysis)
    (hnd : (opps.map (fun o => o.frameId)).Nodup) :
    applyTextAnalysis opps items = specJoinById opps items ∧
    (applyTextAnalysis opps items).length = opps.length ∧
    (∀ o ∈ opps, lastMatch items o.frameId = none →
      o ∈ applyTextAnalysis opps items) := by
  have heq := applyTextAnalysis_eq_specJoin items opps hnd
  refine ⟨heq, ?_, ?_⟩
  · rw [heq]
    simp [specJoinById]
  · intro o ho hnone
    rw [heq]
    unfold specJoinById
    have : (match lastMatch items o.frameId with
        | none => o
        | some it => updateOpp o it) = o := by rw [hnone]
    exact this ▸ List.mem_map_of_mem _ ho

/-- C4 witness: a response carrying only a record for frame "1:2" updates the
checkout opportunity and leaves the signup opportunity untouched. -/
theorem text_join_by_id_wit :
    applyTextAnalysis [exOpp1, exOpp2] [exItemB] = specJoinById [exOpp1, exOpp2] [exItemB] ∧
    (applyTextAnalysis [exOpp1, exOpp2] [exItemB]).length = 2 ∧
    exOpp1 ∈ applyTextAnalysis [exOpp1, exOpp2] [exItemB] :=
  ⟨(text_join_by_id [exOpp1, exOpp2] [exItemB] (by decide)).1,
   (text_join_by_id [exOpp1, exOpp2] [exItemB] (by decide)).2.1,
   (text_join_by_id [exOpp1, exOpp2] [exItemB] (by decide)).2.2 exOpp1 (by decide) (by decide)⟩
